import Mathlib

/-!
Verification development for the `obsidian-oss-uploader` plugin core
(`OssService` in the repository source).  The upload pipeline —
content hashing, key derivation, configuration validation, the
HEAD existence probe, the OSS request signature, compression gating and
the PUT transfer with retry — is embedded shallowly below.  External
platform facilities used by the code (Web Crypto `SHA-256` digest,
`HMAC-SHA1` signing, `btoa` base64, `TextEncoder` UTF-8, the Obsidian
`requestUrl` transport and the wall clock) are modelled by executable
Lean implementations of the corresponding standard algorithms, or, for
the network and the clock, by an explicit environment record.
-/

namespace OssUploader

/-! ## 32-bit word and byte primitives -/

/-- Truncate to an unsigned 32-bit value. -/
def u32 (x : Nat) : Nat := x % 4294967296

/-- Rotate a 32-bit word left by `n` bits. -/
def rotl32 (n x : Nat) : Nat := u32 ((x <<< n) ||| (x >>> (32 - n)))

/-- Rotate a 32-bit word right by `n` bits. -/
def rotr32 (n x : Nat) : Nat := u32 ((x >>> n) ||| (x <<< (32 - n)))

/-- Big-endian serialization of a 32-bit word into four bytes. -/
def w32ToBytes (x : Nat) : List Nat :=
  [(x / 16777216) % 256, (x / 65536) % 256, (x / 256) % 256, x % 256]

/-- Big-endian deserialization of bytes into 32-bit words. -/
def bytesToWords : List Nat → List Nat
  | a :: b :: c :: d :: rest => (((a * 256 + b) * 256 + c) * 256 + d) :: bytesToWords rest
  | _ => []

/-- 64-bit big-endian encoding of the bit length in message padding. -/
def lenTo8Bytes (ml : Nat) : List Nat :=
  [(ml / 72057594037927936) % 256, (ml / 281474976710656) % 256,
   (ml / 1099511627776) % 256, (ml / 4294967296) % 256,
   (ml / 16777216) % 256, (ml / 65536) % 256, (ml / 256) % 256, ml % 256]

/-- Merkle–Damgård padding shared by SHA-1 and SHA-256: append `0x80`,
zero bytes to 56 mod 64, then the 64-bit big-endian bit length. -/
def padMessage (msg : List Nat) : List Nat :=
  msg ++ 128 :: List.replicate ((120 - ((msg.length + 1) % 64)) % 64) 0
      ++ lenTo8Bytes (msg.length * 8)

/-- Consume a padded message 64-byte block at a time with compression
function `f`, with explicit fuel so the recursion is structural (each
step consumes at least one byte, so `fuel = bytes.length` always
suffices). -/
def processChunks64F {σ : Type} (f : σ → List Nat → σ) : Nat → σ → List Nat → σ
  | 0, st, _ => st
  | _, st, [] => st
  | fuel + 1, st, b :: bs => processChunks64F f fuel (f st (b :: bs.take 63)) (bs.drop 63)

/-- Consume a padded message 64-byte block at a time with compression
function `f`. -/
def processChunks64 {σ : Type} (f : σ → List Nat → σ) (st : σ) (bytes : List Nat) : σ :=
  processChunks64F f bytes.length st bytes

/-- Apply `f` to `a`, `n` times. -/
def iterateFn {α : Type} (f : α → α) : Nat → α → α
  | 0, a => a
  | n + 1, a => iterateFn f n (f a)

/-! ## SHA-1 (the digest inside the HMAC used by `calculateSignature`) -/

/-- One step of the SHA-1 message-schedule extension (16 → 80 words). -/
def sha1ExtendStep (w : List Nat) : List Nat :=
  let n := w.length
  w ++ [rotl32 1 ((w.getD (n - 3) 0) ^^^ (w.getD (n - 8) 0) ^^^
                  (w.getD (n - 14) 0) ^^^ (w.getD (n - 16) 0))]

/-- One SHA-1 compression round. -/
def sha1Round (w : List Nat) (st : Nat × Nat × Nat × Nat × Nat) (i : Nat) :
    Nat × Nat × Nat × Nat × Nat :=
  let (a, b, c, d, e) := st
  let f :=
    if i < 20 then (b &&& c) ||| ((b ^^^ 4294967295) &&& d)
    else if i < 40 then b ^^^ c ^^^ d
    else if i < 60 then (b &&& c) ||| (b &&& d) ||| (c &&& d)
    else b ^^^ c ^^^ d
  let k :=
    if i < 20 then 1518500249
    else if i < 40 then 1859775393
    else if i < 60 then 2400959708
    else 3395469782
  let temp := u32 (rotl32 5 a + f + e + k + w.getD i 0)
  (temp, a, rotl32 30 b, c, d)

/-- SHA-1 compression of a single 64-byte block. -/
def sha1Block (h : Nat × Nat × Nat × Nat × Nat) (block : List Nat) :
    Nat × Nat × Nat × Nat × Nat :=
  let w := iterateFn sha1ExtendStep 64 (bytesToWords block)
  let r := (List.range 80).foldl (sha1Round w) h
  (u32 (h.1 + r.1), u32 (h.2.1 + r.2.1), u32 (h.2.2.1 + r.2.2.1),
   u32 (h.2.2.2.1 + r.2.2.2.1), u32 (h.2.2.2.2 + r.2.2.2.2))

/-- Serialize the five SHA-1 state words into the 20-byte digest. -/
def digest5 (h : Nat × Nat × Nat × Nat × Nat) : List Nat :=
  w32ToBytes h.1 ++ w32ToBytes h.2.1 ++ w32ToBytes h.2.2.1 ++
  w32ToBytes h.2.2.2.1 ++ w32ToBytes h.2.2.2.2

/-- SHA-1 of a byte sequence (model of the `SHA-1` hash named in the
`crypto.subtle.importKey` call of `calculateSignature`). -/
def sha1 (msg : List Nat) : List Nat :=
  digest5 (processChunks64 sha1Block
    (1732584193, 4023233417, 2562383102, 271733878, 3285377520) (padMessage msg))

/-- HMAC-SHA1 with the standard 64-byte block construction (model of
`crypto.subtle.sign('HMAC', key, …)` with an `SHA-1` keyed hash). -/
def hmacSha1 (key msg : List Nat) : List Nat :=
  let k0 := if 64 < key.length then sha1 key else key
  let k1 := k0 ++ List.replicate (64 - k0.length) 0
  sha1 ((k1.map (fun b => b ^^^ 92)) ++ sha1 ((k1.map (fun b => b ^^^ 54)) ++ msg))

/-! ## SHA-256 (the digest used by `calculateHash` for key derivation) -/

/-- The 64 SHA-256 round constants. -/
def sha256K : List Nat :=
  [1116352408, 1899447441, 3049323471, 3921009573, 961987163, 1508970993,
   2453635748, 2870763221, 3624381080, 310598401, 607225278, 1426881987,
   1925078388, 2162078206, 2614888103, 3248222580, 3835390401, 4022224774,
   264347078, 604807628, 770255983, 1249150122, 1555081692, 1996064986,
   2554220882, 2821834349, 2952996808, 3210313671, 3336571891, 3584528711,
   113926993, 338241895, 666307205, 773529912, 1294757372, 1396182291,
   1695183700, 1986661051, 2177026350, 2456956037, 2730485921, 2820302411,
   3259730800, 3345764771, 3516065817, 3600352804, 4094571909, 275423344,
   430227734, 506948616, 659060556, 883997877, 958139571, 1322822218,
   1537002063, 1747873779, 1955562222, 2024104815, 2227730452, 2361852424,
   2428436474, 2756734187, 3204031479, 3329325298]

/-- One step of the SHA-256 message-schedule extension (16 → 64 words). -/
def sha256ExtendStep (w : List Nat) : List Nat :=
  let n := w.length
  let w15 := w.getD (n - 15) 0
  let w2 := w.getD (n - 2) 0
  let s0 := rotr32 7 w15 ^^^ rotr32 18 w15 ^^^ (w15 >>> 3)
  let s1 := rotr32 17 w2 ^^^ rotr32 19 w2 ^^^ (w2 >>> 10)
  w ++ [u32 (w.getD (n - 16) 0 + s0 + w.getD (n - 7) 0 + s1)]

/-- The eight-word SHA-256 working state. -/
structure H8 where
  a : Nat
  b : Nat
  c : Nat
  d : Nat
  e : Nat
  f : Nat
  g : Nat
  h : Nat

/-- One SHA-256 compression round. -/
def sha256Round (w : List Nat) (st : H8) (i : Nat) : H8 :=
  let s1 := rotr32 6 st.e ^^^ rotr32 11 st.e ^^^ rotr32 25 st.e
  let ch := (st.e &&& st.f) ^^^ ((st.e ^^^ 4294967295) &&& st.g)
  let t1 := u32 (st.h + s1 + ch + sha256K.getD i 0 + w.getD i 0)
  let s0 := rotr32 2 st.a ^^^ rotr32 13 st.a ^^^ rotr32 22 st.a
  let maj := (st.a &&& st.b) ^^^ (st.a &&& st.c) ^^^ (st.b &&& st.c)
  let t2 := u32 (s0 + maj)
  ⟨u32 (t1 + t2), st.a, st.b, st.c, u32 (st.d + t1), st.e, st.f, st.g⟩

/-- SHA-256 compression of a single 64-byte block. -/
def sha256Block (h : H8) (block : List Nat) : H8 :=
  let w := iterateFn sha256ExtendStep 48 (bytesToWords block)
  let r := (List.range 64).foldl (sha256Round w) h
  ⟨u32 (h.a + r.a), u32 (h.b + r.b), u32 (h.c + r.c), u32 (h.d + r.d),
   u32 (h.e + r.e), u32 (h.f + r.f), u32 (h.g + r.g), u32 (h.h + r.h)⟩

/-- Serialize the eight SHA-256 state words into the 32-byte digest. -/
def digest8 (st : H8) : List Nat :=
  w32ToBytes st.a ++ w32ToBytes st.b ++ w32ToBytes st.c ++ w32ToBytes st.d ++
  w32ToBytes st.e ++ w32ToBytes st.f ++ w32ToBytes st.g ++ w32ToBytes st.h

/-- The SHA-256 initial state. -/
def sha256Init : H8 :=
  ⟨1779033703, 3144134277, 1013904242, 2773480762,
   1359893119, 2600822924, 528734635, 1541459225⟩

/-- SHA-256 of a byte sequence (model of
`crypto.subtle.digest('SHA-256', data)` in `calculateHash`). -/
def sha256 (msg : List Nat) : List Nat :=
  digest8 (processChunks64 sha256Block sha256Init (padMessage msg))

/-! ## Base64, UTF-8 and hex formatting -/

/-- The base64 alphabet character at index `n`. -/
def b64Char (n : Nat) : Char :=
  "ABCDEFGHIJKLMNOPQRSTUVWXYZabcdefghijklmnopqrstuvwxyz0123456789+/".data.getD n 'A'

/-- Standard base64 of a byte sequence (model of
`btoa(String.fromCharCode(...bytes))` in `calculateSignature`). -/
def base64Encode : List Nat → String
  | [] => ""
  | [a] =>
    ⟨[b64Char (a / 4), b64Char ((a % 4) * 16), '=', '=']⟩
  | [a, b] =>
    ⟨[b64Char (a / 4), b64Char ((a % 4) * 16 + b / 16), b64Char ((b % 16) * 4), '=']⟩
  | a :: b :: c :: rest =>
    (⟨[b64Char (a / 4), b64Char ((a % 4) * 16 + b / 16),
       b64Char ((b % 16) * 4 + c / 64), b64Char (c % 64)]⟩ : String)
      ++ base64Encode rest

/-- UTF-8 encoding of one scalar value (model of `TextEncoder`). -/
def utf8EncodeCharM (c : Char) : List Nat :=
  let n := c.toNat
  if n < 128 then [n]
  else if n < 2048 then [192 ||| (n >>> 6), 128 ||| (n &&& 63)]
  else if n < 65536 then
    [224 ||| (n >>> 12), 128 ||| ((n >>> 6) &&& 63), 128 ||| (n &&& 63)]
  else
    [240 ||| (n >>> 18), 128 ||| ((n >>> 12) &&& 63),
     128 ||| ((n >>> 6) &&& 63), 128 ||| (n &&& 63)]

/-- UTF-8 bytes of a string (model of `new TextEncoder().encode(s)`). -/
def utf8Bytes (s : String) : List Nat :=
  (s.data.map utf8EncodeCharM).flatten

/-- Model of the JavaScript `b.toString(16).padStart(2, '0')` in
`calculateHash`: lowercase hexadecimal, left-padded to two characters. -/
def byteToHexJS (b : Nat) : String :=
  let ds := Nat.toDigits 16 b
  ⟨List.replicate (2 - ds.length) '0' ++ ds⟩

/-! ## String helpers mirroring the JavaScript string operations -/

/-- Does `needle` occur at the start of `hay`?  (helper for the
`error.message.includes('404')` check). -/
def prefixB : List Char → List Char → Bool
  | [], _ => true
  | _ :: _, [] => false
  | a :: as, b :: bs => a == b && prefixB as bs

/-- Does `needle` occur anywhere inside `hay`? -/
def infixB (needle : List Char) : List Char → Bool
  | [] => needle.isEmpty
  | c :: cs => prefixB needle (c :: cs) || infixB needle cs

/-- Model of the JavaScript `hay.includes(needle)` used in
`checkFileExists`. -/
def strContains (hay needle : String) : Bool := infixB needle.data hay.data

/-- Model of the JavaScript `str.split(sep)` for a one-character
separator: split, keeping empty pieces. -/
def splitOnChar (sep : Char) : List Char → List (List Char)
  | [] => [[]]
  | c :: cs =>
    let r := splitOnChar sep cs
    if c = sep then [] :: r
    else
      match r with
      | [] => [[c]]
      | p :: ps => (c :: p) :: ps

/-- Model of `fileName.split('.').pop() || ''` (line 112 of the source):
the part of the filename after the last dot, or the whole name when it
contains no dot, or the empty string for an empty final piece. -/
def fileExtOf (fileName : String) : String :=
  ⟨(splitOnChar '.' fileName.data).getLastD []⟩

/-! ## Data model: settings and plugin service state -/

/-- The `AliyunOssSettings` interface of the source.  The two numeric
compression limits are JavaScript numbers, modelled as rationals; they
are only stored and handed to the external compressor. -/
structure AliyunOssSettings where
  accessKeyId : String
  accessKeySecret : String
  bucket : String
  region : String
  customDomain : String
  path : String
  enableCompression : Bool
  maxSizeMB : Rat
  maxWidthOrHeight : Rat
  interceptPasteAndDrop : Bool

/-- The `DEFAULT_SETTINGS` constant of the source. -/
def DEFAULT_SETTINGS : AliyunOssSettings :=
  { accessKeyId := ""
    accessKeySecret := ""
    bucket := ""
    region := ""
    customDomain := ""
    path := "obsidian/"
    enableCompression := true
    maxSizeMB := 3 / 10
    maxWidthOrHeight := 1280
    interceptPasteAndDrop := true }

/-- The `maxRetries` field of `OssService`. -/
def maxRetries : Nat := 3

/-- Outcome the network produces for one request: either an HTTP status
or a transport-level failure carrying an error message. -/
inductive NetOutcome where
  | status (s : Nat)
  | netError (msg : String)
  deriving DecidableEq

/-- The error message Obsidian's `requestUrl` uses when it rejects a
response whose status is 400 or above. -/
def requestFailedMsg (st : Nat) : String :=
  "Request failed, status " ++ toString st

/-- Model of Obsidian's `requestUrl`: with the default `throw` option it
raises an error for statuses of 400 and above and otherwise resolves
with the response (represented by its status). -/
def requestUrlModel : NetOutcome → Except String Nat
  | .status s => if 400 ≤ s then .error (requestFailedMsg s) else .ok s
  | .netError m => .error m

/-- Observable side effects of one `uploadWithCompression` run: the
HEAD probe, a run of the external image compressor, each PUT attempt of
the retried transfer, the attempt markers of `retryOperation` and the
backoff sleeps. -/
inductive OssEvent where
  | headReq (url authorization date : String)
  | compressRun (maxSizeMB maxWidthOrHeight : Rat) (input : List Nat)
  | putReq (url authorization date contentType : String) (body : List Nat)
  | attempt (i : Nat)
  | delayEv (ms : Nat)
  deriving DecidableEq

/-- The environment a run draws its external inputs from: the wall
clock (value of the k-th `new Date().toUTCString()` read), the response
to the HEAD probe, the external image compressor — whose promise may
reject (corrupt input, unsupported encoding), in which case the error
propagates out of `uploadWithCompression`, which has no handler for
it — and the response of the store to the i-th PUT attempt, which may
depend on the request body sent. -/
structure OssEnv where
  clock : Nat → String
  headOutcome : NetOutcome
  compress : Rat → Rat → List Nat → Except String (List Nat)
  putOutcome : List Nat → Nat → NetOutcome

/-! ## OssService operations -/

/-- `OssService.validateSettings`: reject a configuration with an empty
access key id, access key secret, bucket or region, in that order, with
the error messages of the source. -/
def validateSettings (s : AliyunOssSettings) : Except String Unit :=
  if s.accessKeyId = "" then .error "缺少 Access Key ID"
  else if s.accessKeySecret = "" then .error "缺少 Access Key Secret"
  else if s.bucket = "" then .error "缺少 Bucket"
  else if s.region = "" then .error "缺少 Region"
  else .ok ()

/-- `OssService.calculateSignature`: HMAC-SHA1 of the string to sign,
keyed by the access key secret, base64-encoded. -/
def calculateSignature (stringToSign accessKeySecret : String) : String :=
  base64Encode (hmacSha1 (utf8Bytes accessKeySecret) (utf8Bytes stringToSign))

/-- `OssService.calculateHash`: lowercase-hex SHA-256 digest of the
payload bytes. -/
def calculateHash (data : List Nat) : String :=
  String.join ((sha256 data).map byteToHexJS)

/-- The string to sign built by `OssService.generateSignature` for the
PUT upload. -/
def putStringToSign (s : AliyunOssSettings) (ossPath contentType date : String) : String :=
  "PUT\n\n" ++ contentType ++ "\n" ++ date ++ "\n" ++ ("/" ++ s.bucket ++ "/" ++ ossPath)

/-- `OssService.generateSignature` (with the `new Date().toUTCString()`
read passed in as `date`): the `Authorization` header value and the
endpoint URL. -/
def generateSignature (s : AliyunOssSettings) (ossPath contentType date : String) :
    String × String :=
  ("OSS " ++ s.accessKeyId ++ ":" ++ calculateSignature (putStringToSign s ossPath contentType date) s.accessKeySecret,
   "https://" ++ s.bucket ++ "." ++ s.region ++ ".aliyuncs.com/" ++ ossPath)

/-- The string to sign built by `OssService.checkFileExists` for the
HEAD probe: verb `HEAD` with empty content-md5 and content-type lines. -/
def headStringToSign (s : AliyunOssSettings) (ossPath date : String) : String :=
  "HEAD\n\n\n" ++ date ++ "\n" ++ ("/" ++ s.bucket ++ "/" ++ ossPath)

/-- The value `checkFileExists` resolves with, as a function of the
network outcome: `response.status === 200` when `requestUrl` resolves;
when it throws, `false` if the message includes `'404'`, otherwise the
error is rethrown. -/
def checkResultOf (o : NetOutcome) : Except String Bool :=
  match requestUrlModel o with
  | .ok st => .ok (st == 200)
  | .error m => if strContains m "404" then .ok false else .error m

/-- `OssService.checkFileExists`: the signed HEAD probe it issues and
the result it produces for the given network outcome. -/
def checkFileExists (s : AliyunOssSettings) (ossPath date : String) (o : NetOutcome) :
    OssEvent × Except String Bool :=
  (OssEvent.headReq ("https://" ++ s.bucket ++ "." ++ s.region ++ ".aliyuncs.com/" ++ ossPath)
     ("OSS " ++ s.accessKeyId ++ ":" ++ calculateSignature (headStringToSign s ossPath date) s.accessKeySecret)
     date,
   checkResultOf o)

/-- `OssService.retryOperation`, with `fuel = maxRetries - retryCount`
making the recursion structural: run the operation; on failure, if
retries remain, sleep `2 ^ retryCount * 1000` ms and recurse with the
count increased, otherwise rethrow the error unchanged. -/
def retryGo {ε α : Type} (op : Nat → List OssEvent × Except ε α)
    (fuel retryCount : Nat) : List OssEvent × Except ε α :=
  match op retryCount with
  | (evs, .ok a) => (OssEvent.attempt retryCount :: evs, .ok a)
  | (evs, .error e) =>
    match fuel with
    | 0 => (OssEvent.attempt retryCount :: evs, .error e)
    | f + 1 =>
      let r := retryGo op f (retryCount + 1)
      (OssEvent.attempt retryCount :: evs ++ OssEvent.delayEv (2 ^ retryCount * 1000) :: r.1,
       r.2)

/-- `retryOperation` entered with the default `retryCount = 0`. -/
def retryOperation {ε α : Type} (op : Nat → List OssEvent × Except ε α) :
    List OssEvent × Except ε α :=
  retryGo op maxRetries 0

/-- ASCII lowercase of one character (the case folding the regex `/i`
flag performs on the ASCII letters of the extension pattern). -/
def charLowerM (c : Char) : Char :=
  if 'A' ≤ c && c ≤ 'Z' then Char.ofNat (c.toNat + 32) else c

/-- ASCII lowercase of a string. -/
def toLowerM (s : String) : String := ⟨s.data.map charLowerM⟩

/-- Does the file extension match the `/^(png|jpe?g|gif|webp|bmp)$/i`
compression gate?  The case-insensitive anchored alternation is
modelled as ASCII-lowercasing the extension and comparing with the six
alternatives. -/
def isImageExt (ext : String) : Bool :=
  ["png", "jpg", "jpeg", "gif", "webp", "bmp"].contains (toLowerM ext)

/-- The public base URL: the custom domain when configured (JavaScript
`||` treats the empty string as absent), else the bucket endpoint. -/
def baseUrlOf (s : AliyunOssSettings) : String :=
  if s.customDomain = "" then "https://" ++ s.bucket ++ "." ++ s.region ++ ".aliyuncs.com"
  else s.customDomain

/-- The storage key derived at the start of `uploadWithCompression`:
path prefix, SHA-256 hex of the raw payload, dot, filename extension. -/
def ossPathOf (s : AliyunOssSettings) (data : List Nat) (fileName : String) : String :=
  s.path ++ calculateHash data ++ "." ++ fileExtOf fileName

/-- The operation handed to `retryOperation` by `uploadWithCompression`:
one PUT attempt.  The i-th attempt reads the clock (read index
`k + 1 + i`) for its `Date` header; the `Authorization` header is the
one captured before the loop.  A resolved response with a status other
than 200 is thrown as `上传失败: HTTP <status>`. -/
def putAttempt (env : OssEnv) (endpoint authorization contentType : String)
    (body : List Nat) (k i : Nat) : List OssEvent × Except String Unit :=
  let ev := OssEvent.putReq endpoint authorization (env.clock (k + 1 + i)) contentType body
  match requestUrlModel (env.putOutcome body i) with
  | .ok st => if st = 200 then ([ev], .ok ()) else ([ev], .error ("上传失败: HTTP " ++ toString st))
  | .error m => ([ev], .error m)

/-- The transfer tail of `uploadWithCompression`: signature generation
(clock read `k`), the retried PUT of `finalContent`, and URL
construction.  `evs` carries the events already emitted. -/
def uploadPut (s : AliyunOssSettings) (fileExt ossPath : String) (k : Nat) (env : OssEnv)
    (evs : List OssEvent) (finalContent : List Nat) : List OssEvent × Except String String :=
  let contentType := "image/" ++ fileExt
  let ae := generateSignature s ossPath contentType (env.clock k)
  let pr := retryOperation (putAttempt env ae.2 ae.1 contentType finalContent k)
  (evs ++ pr.1, pr.2.map (fun _ => baseUrlOf s ++ "/" ++ ossPath))

/-- The tail of `uploadWithCompression` after the existence check: when
compression is enabled and the extension matches the raster-image gate,
run the external compressor — a rejected compression promise propagates
as the run's error, aborting before any PUT — otherwise transfer the
raw payload.  `evs0` carries the events already emitted. -/
def uploadCore (s : AliyunOssSettings) (data : List Nat) (fileExt ossPath : String)
    (k : Nat) (env : OssEnv) (evs0 : List OssEvent) : List OssEvent × Except String String :=
  if s.enableCompression && isImageExt fileExt then
    match env.compress s.maxSizeMB s.maxWidthOrHeight data with
    | .error m => (evs0 ++ [OssEvent.compressRun s.maxSizeMB s.maxWidthOrHeight data], .error m)
    | .ok finalContent =>
      uploadPut s fileExt ossPath k env
        (evs0 ++ [OssEvent.compressRun s.maxSizeMB s.maxWidthOrHeight data]) finalContent
  else uploadPut s fileExt ossPath k env evs0 data

/-- `OssService.uploadWithCompression`: derive the key from the raw
payload, probe for an existing object unless skipped (returning the
public URL immediately when present), then compress, sign and transfer
with retry. -/
def uploadWithCompression (s : AliyunOssSettings) (data : List Nat) (fileName : String)
    (skipExistCheck : Bool) (env : OssEnv) : List OssEvent × Except String String :=
  let ossPath := ossPathOf s data fileName
  if skipExistCheck then uploadCore s data (fileExtOf fileName) ossPath 0 env []
  else
    let pr := checkFileExists s ossPath (env.clock 0) env.headOutcome
    match pr.2 with
    | .error m => ([pr.1], .error m)
    | .ok true => ([pr.1], .ok (baseUrlOf s ++ "/" ++ ossPath))
    | .ok false => uploadCore s data (fileExtOf fileName) ossPath 1 env [pr.1]

/-- `OssService.uploadFile`: validate the settings, then upload with
the existence check enabled. -/
def uploadFile (s : AliyunOssSettings) (data : List Nat) (fileName : String)
    (env : OssEnv) : List OssEvent × Except String String :=
  match validateSettings s with
  | .error m => ([], .error m)
  | .ok _ => uploadWithCompression s data fileName false env

/-! ## Spec-side definitions (written from the specification's words,
for comparison with the code-side definitions above) -/

/-- The canonical string-to-sign as the specification words it:
`VERB`, content-MD5 line, content-type, timestamp and resource, each
separated by a newline. -/
def specCanonicalString (verb contentMD5 contentType timestamp resource : String) : String :=
  verb ++ "\n" ++ contentMD5 ++ "\n" ++ contentType ++ "\n" ++ timestamp ++ "\n" ++ resource

/-- The authorization header value as the specification words it:
scheme, space, access key id, colon, signature. -/
def specAuthHeader (scheme accessKeyId signature : String) : String :=
  scheme ++ " " ++ accessKeyId ++ ":" ++ signature

/-- Two-character lowercase hexadecimal rendering of one byte, as the
specification words it. -/
def specHexByte (b : Nat) : String :=
  ⟨["0123456789abcdef".data.getD (b / 16 % 16) '0',
    "0123456789abcdef".data.getD (b % 16) '0']⟩

/-- Lowercase hex digest string of a byte sequence, as the
specification words it. -/
def lowercaseHexSpec (bs : List Nat) : String :=
  String.join (bs.map specHexByte)

/-! ## Event projections -/

/-- Is the event a PUT transfer? -/
def isPutEv : OssEvent → Bool
  | .putReq _ _ _ _ _ => true
  | _ => false

/-- Is the event a compressor run? -/
def isCompressEv : OssEvent → Bool
  | .compressRun _ _ _ => true
  | _ => false

/-- The content type carried by a PUT event. -/
def putContentTypeOf : OssEvent → Option String
  | .putReq _ _ _ ct _ => some ct
  | _ => none

/-- The authorization header and date header carried by a PUT event. -/
def putAuthDateOf : OssEvent → Option (String × String)
  | .putReq _ a d _ _ => some (a, d)
  | _ => none

/-! ## Helper lemmas -/

theorem strAppend_assoc (a b c : String) : (a ++ b) ++ c = a ++ (b ++ c) := by
  apply String.ext; simp [String.data_append]

theorem digest5_length (h : Nat × Nat × Nat × Nat × Nat) : (digest5 h).length = 20 := by
  obtain ⟨a, b, c, d, e⟩ := h
  simp [digest5, w32ToBytes]

theorem sha1_length (msg : List Nat) : (sha1 msg).length = 20 := by
  simp [sha1, digest5_length]

theorem hmacSha1_length (key msg : List Nat) : (hmacSha1 key msg).length = 20 := by
  simp [hmacSha1, sha1_length]

theorem w32ToBytes_lt (x : Nat) : ∀ b ∈ w32ToBytes x, b < 256 := by
  intro b hb
  simp only [w32ToBytes, List.mem_cons, List.mem_singleton] at hb
  rcases hb with rfl | rfl | rfl | rfl | h
  · exact Nat.mod_lt _ (by norm_num)
  · exact Nat.mod_lt _ (by norm_num)
  · exact Nat.mod_lt _ (by norm_num)
  · exact Nat.mod_lt _ (by norm_num)
  · cases h

theorem digest8_lt (st : H8) : ∀ b ∈ digest8 st, b < 256 := by
  intro b hb
  simp only [digest8, List.mem_append] at hb
  rcases hb with ((((((h | h) | h) | h) | h) | h) | h) | h <;> exact w32ToBytes_lt _ _ h

theorem sha256_bytes_lt (data : List Nat) : ∀ b ∈ sha256 data, b < 256 := by
  intro b hb
  exact digest8_lt _ b hb

set_option maxRecDepth 4000 in
theorem byteToHexJS_eq_spec : ∀ b, b < 256 → byteToHexJS b = specHexByte b := by decide

theorem splitOnChar_no_sep (sep : Char) (cs : List Char) (h : sep ∉ cs) :
    splitOnChar sep cs = [cs] := by
  induction cs with
  | nil => rfl
  | cons c cs ih =>
    simp only [List.mem_cons, not_or] at h
    rw [splitOnChar]
    simp only [ih h.2]
    rw [if_neg (fun hc => h.1 hc.symm)]

theorem exceptMap_ok {α β : Type} (f : α → β) (x : Except String α) (b : β)
    (h : x.map f = .ok b) : ∃ a, x = .ok a ∧ b = f a := by
  cases x with
  | error m => simp [Except.map] at h
  | ok a =>
    simp [Except.map] at h
    exact ⟨a, rfl, h.symm⟩

/-- Any URL a `uploadPut` run resolves with is the constructed
`baseUrl/key`. -/
theorem uploadPut_ok_url (s : AliyunOssSettings) (fileExt ossPath : String) (k : Nat)
    (env : OssEnv) (evs : List OssEvent) (body : List Nat) (url : String)
    (h : (uploadPut s fileExt ossPath k env evs body).2 = .ok url) :
    url = baseUrlOf s ++ "/" ++ ossPath := by
  simp only [uploadPut] at h
  obtain ⟨a, _, hb⟩ := exceptMap_ok _ _ _ h
  exact hb

/-- Any URL a `uploadCore` run resolves with is the constructed
`baseUrl/key`. -/
theorem uploadCore_ok_url (s : AliyunOssSettings) (data : List Nat) (fileExt ossPath : String)
    (k : Nat) (env : OssEnv) (evs0 : List OssEvent) (url : String)
    (h : (uploadCore s data fileExt ossPath k env evs0).2 = .ok url) :
    url = baseUrlOf s ++ "/" ++ ossPath := by
  rcases hcond : s.enableCompression && isImageExt fileExt with _ | _
  · simp only [uploadCore, hcond, Bool.false_eq_true, if_false] at h
    exact uploadPut_ok_url s fileExt ossPath k env evs0 data url h
  · simp only [uploadCore, hcond, if_true] at h
    rcases hcomp : env.compress s.maxSizeMB s.maxWidthOrHeight data with m | fc
    · rw [hcomp] at h
      simp at h
    · rw [hcomp] at h
      exact uploadPut_ok_url s fileExt ossPath k env _ fc url h

/-- Any URL an `uploadWithCompression` run resolves with — through the
dedup short circuit or through the transfer — is the constructed
`baseUrl/key` for the raw payload's key. -/
theorem upload_ok_url (s : AliyunOssSettings) (data : List Nat) (fileName : String)
    (skip : Bool) (env : OssEnv) (url : String)
    (h : (uploadWithCompression s data fileName skip env).2 = .ok url) :
    url = baseUrlOf s ++ "/" ++ ossPathOf s data fileName := by
  cases skip with
  | true =>
    simp only [uploadWithCompression, if_true] at h
    exact uploadCore_ok_url s data _ _ 0 env [] url h
  | false =>
    revert h
    simp only [uploadWithCompression, Bool.false_eq_true, if_false, checkFileExists]
    rcases hc : checkResultOf env.headOutcome with m | bb
    · intro h
      simp at h
    · cases bb
      · intro h
        exact uploadCore_ok_url s data _ _ 1 env _ url h
      · intro h
        simp at h
        exact h.symm

/-! ## Claim theorems -/

/-- C3: `retryOperation` gives a transfer that fails its first two
attempts and succeeds on the third exactly two retries, with backoff
sleeps of 1000 ms (one time unit) and 2000 ms (two units), and returns
the success; a transfer failing every attempt is tried exactly four
times (attempt markers 0–3) with sleeps of 1000, 2000 and 4000 ms
between them, and an error is raised. -/
theorem retryOperation_retry_schedule {ε α : Type}
    (op op2 : Nat → List OssEvent × Except ε α) (e0 e1 : ε) (a : α) (err : Nat → ε)
    (h0 : op 0 = ([], .error e0)) (h1 : op 1 = ([], .error e1))
    (h2 : op 2 = ([], .ok a)) (hall : ∀ i, op2 i = ([], .error (err i))) :
    retryOperation op
      = ([.attempt 0, .delayEv 1000, .attempt 1, .delayEv 2000, .attempt 2], .ok a)
    ∧ retryOperation op2
      = ([.attempt 0, .delayEv 1000, .attempt 1, .delayEv 2000, .attempt 2,
          .delayEv 4000, .attempt 3], .error (err 3)) := by
  constructor
  · simp [retryOperation, maxRetries, retryGo, h0, h1, h2]
  · simp [retryOperation, maxRetries, retryGo, hall]

/-- Witness for C3 at concrete operations over `String` errors and a
`Nat` result. -/
theorem retryOperation_retry_schedule_witness :
    retryOperation (fun i => match i with
        | 0 => (([], .error "f0") : List OssEvent × Except String Nat)
        | 1 => ([], .error "f1")
        | _ => ([], .ok 7))
      = ([.attempt 0, .delayEv 1000, .attempt 1, .delayEv 2000, .attempt 2], .ok 7)
    ∧ retryOperation (fun _ => (([], .error "g") : List OssEvent × Except String Nat))
      = ([.attempt 0, .delayEv 1000, .attempt 1, .delayEv 2000, .attempt 2,
          .delayEv 4000, .attempt 3], .error "g") :=
  retryOperation_retry_schedule _ _ "f0" "f1" 7 (fun _ => "g") rfl rfl rfl (fun _ => rfl)

/-- C7 counterexample: when every attempt fails with the error
`"boom"`, `retryOperation` surfaces exactly that raw error — it is the
underlying error itself, not a distinct wrapped error kind. -/
theorem retryOperation_raw_error_counterexample :
    (retryOperation (fun _ => (([], .error "boom") : List OssEvent × Except String Unit))).2
      = .error "boom" := by
  simp [retryOperation, maxRetries, retryGo]

/-- C7 (amended): when the transfer fails on all attempts, the error
surfaced to the caller is the last underlying error, rethrown
unchanged; no wrapping into a distinct error kind occurs. -/
theorem retryOperation_surfaces_last_raw_error {ε α : Type}
    (op : Nat → List OssEvent × Except ε α) (evs : Nat → List OssEvent) (err : Nat → ε)
    (hall : ∀ i, op i = (evs i, .error (err i))) :
    (retryOperation op).2 = .error (err 3) := by
  simp [retryOperation, maxRetries, retryGo, hall]

/-- Witness for C7's amended theorem at a concrete always-failing
operation. -/
theorem retryOperation_surfaces_last_raw_error_witness :
    (retryOperation (fun i => (([], .error (toString i)) : List OssEvent × Except String Unit))).2
      = .error "3" :=
  retryOperation_surfaces_last_raw_error _ (fun _ => []) (fun i => toString i) (fun _ => rfl)

/-- C4: the canonical string signed for an upload is exactly
`PUT`, an empty content-MD5 line, the content type, the timestamp and
`/<bucket>/<key>`, newline-separated; the signature is base64 of the
HMAC keyed by the access key secret whose underlying hash has a
160-bit (20-byte) digest; and the `Authorization` value is the scheme
`OSS`, a space, the access key id, a colon and the signature. -/
theorem generateSignature_canonical (s : AliyunOssSettings) (ossPath contentType date : String) :
    putStringToSign s ossPath contentType date
      = specCanonicalString "PUT" "" contentType date ("/" ++ s.bucket ++ "/" ++ ossPath)
    ∧ (generateSignature s ossPath contentType date).1
      = specAuthHeader "OSS" s.accessKeyId
          (base64Encode (hmacSha1 (utf8Bytes s.accessKeySecret)
            (utf8Bytes (specCanonicalString "PUT" "" contentType date
              ("/" ++ s.bucket ++ "/" ++ ossPath)))))
    ∧ (∀ key msg : List Nat, (hmacSha1 key msg).length = 20) := by
  refine ⟨?_, ?_, fun key msg => hmacSha1_length key msg⟩
  · apply String.ext
    simp [putStringToSign, specCanonicalString, String.data_append]
  · rw [generateSignature]
    simp only
    rw [show putStringToSign s ossPath contentType date
        = specCanonicalString "PUT" "" contentType date ("/" ++ s.bucket ++ "/" ++ ossPath) from by
      apply String.ext
      simp [putStringToSign, specCanonicalString, String.data_append]]
    apply String.ext
    simp [specAuthHeader, calculateSignature, String.data_append]

/-- Concrete fixtures used by witnesses and counterexamples. -/
def sampleSettings : AliyunOssSettings :=
  { accessKeyId := "AKID"
    accessKeySecret := "secret"
    bucket := "mybucket"
    region := "oss-cn-hangzhou"
    customDomain := ""
    path := "obsidian/"
    enableCompression := false
    maxSizeMB := 3 / 10
    maxWidthOrHeight := 1280
    interceptPasteAndDrop := true }

/-- An environment whose HEAD probe reports absence and whose first PUT
attempt fails with a server error while the second succeeds; the k-th
clock read yields `"T<k>"`. -/
def retryEnv : OssEnv :=
  { clock := fun k => "T" ++ toString k
    headOutcome := .status 404
    compress := fun _ _ l => .ok l
    putOutcome := fun _ i => if i = 0 then .status 500 else .status 200 }

/-- An environment whose HEAD probe reports the object present. -/
def presentEnv : OssEnv :=
  { clock := fun k => "T" ++ toString k
    headOutcome := .status 200
    compress := fun _ _ l => .ok l
    putOutcome := fun _ _ => .status 200 }

/-- C2: uploading through the validated entry point (`uploadFile`) with
an empty access key id, secret, bucket or region fails with the
corresponding missing-configuration error and produces no events at
all: no existence probe and no PUT is issued. -/
theorem uploadFile_config_gate (s : AliyunOssSettings) (data : List Nat)
    (fileName : String) (env : OssEnv)
    (h : s.accessKeyId = "" ∨ s.accessKeySecret = "" ∨ s.bucket = "" ∨ s.region = "") :
    (uploadFile s data fileName env).1 = []
    ∧ ∃ m, (uploadFile s data fileName env).2 = .error m
        ∧ (m = "缺少 Access Key ID" ∨ m = "缺少 Access Key Secret"
           ∨ m = "缺少 Bucket" ∨ m = "缺少 Region") := by
  by_cases h1 : s.accessKeyId = ""
  · simp [uploadFile, validateSettings, h1]
  · by_cases h2 : s.accessKeySecret = ""
    · simp [uploadFile, validateSettings, h1, h2]
    · by_cases h3 : s.bucket = ""
      · simp [uploadFile, validateSettings, h1, h2, h3]
      · have h4 : s.region = "" := by tauto
        simp [uploadFile, validateSettings, h1, h2, h3, h4]

/-- Witness for C2: the default settings with everything but the access
key id filled in are rejected with the access-key-id error, with an
empty event trace. -/
theorem uploadFile_config_gate_witness :
    (uploadFile { DEFAULT_SETTINGS with accessKeySecret := "s", bucket := "b", region := "r" }
        [] "a.png" retryEnv).1 = []
    ∧ ∃ m, (uploadFile { DEFAULT_SETTINGS with accessKeySecret := "s", bucket := "b", region := "r" }
        [] "a.png" retryEnv).2 = .error m
        ∧ (m = "缺少 Access Key ID" ∨ m = "缺少 Access Key Secret"
           ∨ m = "缺少 Bucket" ∨ m = "缺少 Region") :=
  uploadFile_config_gate _ [] "a.png" retryEnv (Or.inl rfl)

/-- C1: the storage key reads only the path prefix, the SHA-256 hex of
the raw (uncompressed) payload and the filename extension, so settings
that differ only in `enableCompression`, `maxSizeMB` and
`maxWidthOrHeight` derive the same key; and in every environment, any
URL either run returns equals the one canonical `baseUrl/key` built
from that shared key — so changing only the compression settings never
changes the key or the returned URL.  (A rejected compression promise
propagates as an error and aborts a run without any URL; it can never
make a run resolve with a different URL.) -/
theorem upload_key_independent_of_compression (s : AliyunOssSettings) (b : Bool) (q w : Rat)
    (data : List Nat) (fileName : String) (skip : Bool) (env : OssEnv) :
    ossPathOf { s with enableCompression := b, maxSizeMB := q, maxWidthOrHeight := w } data fileName
      = ossPathOf s data fileName
    ∧ ossPathOf s data fileName = s.path ++ calculateHash data ++ "." ++ fileExtOf fileName
    ∧ (∀ url, (uploadWithCompression
          { s with enableCompression := b, maxSizeMB := q, maxWidthOrHeight := w }
          data fileName skip env).2 = .ok url →
        url = baseUrlOf s ++ "/" ++ ossPathOf s data fileName)
    ∧ (∀ url, (uploadWithCompression s data fileName skip env).2 = .ok url →
        url = baseUrlOf s ++ "/" ++ ossPathOf s data fileName) := by
  refine ⟨rfl, rfl, fun url h => ?_, fun url h => upload_ok_url s data fileName skip env url h⟩
  exact upload_ok_url { s with enableCompression := b, maxSizeMB := q, maxWidthOrHeight := w }
    data fileName skip env url h

/-- An environment whose HEAD probe reports absence, whose compressor
succeeds while changing the payload, and whose store accepts every
PUT. -/
def compressEnv : OssEnv :=
  { clock := fun k => "T" ++ toString k
    headOutcome := .status 404
    compress := fun _ _ l => .ok (l ++ [0])
    putOutcome := fun _ _ => .status 200 }

set_option maxRecDepth 100000 in
/-- Witness for C1: a compression-enabled run (whose compressor alters
the body) and the compression-disabled run of the same payload both
resolve with the same canonical URL. -/
theorem upload_key_independent_of_compression_witness :
    "https://mybucket.oss-cn-hangzhou.aliyuncs.com/obsidian/e3b0c44298fc1c149afbf4c8996fb92427ae41e4649b934ca495991b7852b855.png"
      = baseUrlOf sampleSettings ++ "/" ++ ossPathOf sampleSettings [] "a.png"
    ∧ "https://mybucket.oss-cn-hangzhou.aliyuncs.com/obsidian/e3b0c44298fc1c149afbf4c8996fb92427ae41e4649b934ca495991b7852b855.png"
      = baseUrlOf sampleSettings ++ "/" ++ ossPathOf sampleSettings [] "a.png" :=
  ⟨(upload_key_independent_of_compression sampleSettings true (3 / 10) 1280
      [] "a.png" true compressEnv).2.2.1
    "https://mybucket.oss-cn-hangzhou.aliyuncs.com/obsidian/e3b0c44298fc1c149afbf4c8996fb92427ae41e4649b934ca495991b7852b855.png"
    (by rfl),
   (upload_key_independent_of_compression sampleSettings true (3 / 10) 1280
      [] "a.png" true compressEnv).2.2.2
    "https://mybucket.oss-cn-hangzhou.aliyuncs.com/obsidian/e3b0c44298fc1c149afbf4c8996fb92427ae41e4649b934ca495991b7852b855.png"
    (by rfl)⟩

/-- C5: when the existence probe reports the object present (status
200), `uploadWithCompression` returns the constructed URL immediately
and the whole event trace is the single HEAD probe — no compressor run
and no PUT transfer happen. -/
theorem upload_exists_short_circuit (s : AliyunOssSettings) (data : List Nat)
    (fileName : String) (env : OssEnv) (h : env.headOutcome = .status 200) :
    uploadWithCompression s data fileName false env
      = ([(checkFileExists s (ossPathOf s data fileName) (env.clock 0) env.headOutcome).1],
         .ok (baseUrlOf s ++ "/" ++ ossPathOf s data fileName))
    ∧ (uploadWithCompression s data fileName false env).1.filter isPutEv = []
    ∧ (uploadWithCompression s data fileName false env).1.filter isCompressEv = [] := by
  have hsc : (checkFileExists s (ossPathOf s data fileName) (env.clock 0) env.headOutcome).2
      = .ok true := by
    show checkResultOf env.headOutcome = .ok true
    rw [h]
    rfl
  have h1 : uploadWithCompression s data fileName false env
      = ([(checkFileExists s (ossPathOf s data fileName) (env.clock 0) env.headOutcome).1],
         .ok (baseUrlOf s ++ "/" ++ ossPathOf s data fileName)) := by
    simp only [uploadWithCompression, Bool.false_eq_true, if_false]
    rw [hsc]
  refine ⟨h1, ?_, ?_⟩ <;> rw [h1] <;> simp [checkFileExists, isPutEv, isCompressEv]

/-- Witness for C5 at concrete settings and an environment whose HEAD
probe answers 200. -/
theorem upload_exists_short_circuit_witness :
    uploadWithCompression sampleSettings [] "a.png" false presentEnv
      = ([(checkFileExists sampleSettings (ossPathOf sampleSettings [] "a.png")
            (presentEnv.clock 0) presentEnv.headOutcome).1],
         .ok (baseUrlOf sampleSettings ++ "/" ++ ossPathOf sampleSettings [] "a.png"))
    ∧ (uploadWithCompression sampleSettings [] "a.png" false presentEnv).1.filter isPutEv = []
    ∧ (uploadWithCompression sampleSettings [] "a.png" false presentEnv).1.filter isCompressEv = [] :=
  upload_exists_short_circuit sampleSettings [] "a.png" presentEnv rfl

/-- The events of one `putAttempt` are a single PUT request. -/
theorem putAttempt_fst (env : OssEnv) (endpoint authorization contentType : String)
    (body : List Nat) (k i : Nat) :
    (putAttempt env endpoint authorization contentType body k i).1
      = [OssEvent.putReq endpoint authorization (env.clock (k + 1 + i)) contentType body] := by
  rw [putAttempt]
  cases requestUrlModel (env.putOutcome body i) with
  | ok st => by_cases hst : st = 200 <;> simp [hst]
  | error m => simp

/-- Content types carried by PUT events in a `retryGo` trace all come
from the operation's own events. -/
theorem retryGo_cts {ε α : Type} (op : Nat → List OssEvent × Except ε α) (ct : String)
    (hop : ∀ i x, x ∈ (op i).1.filterMap putContentTypeOf → x = ct) :
    ∀ f rc x, x ∈ (retryGo op f rc).1.filterMap putContentTypeOf → x = ct := by
  intro f
  induction f with
  | zero =>
    intro rc x hx
    rw [retryGo.eq_def] at hx
    rcases hopr : op rc with ⟨evs, r⟩
    rw [hopr] at hx
    cases r <;>
      · simp only [List.filterMap_cons, putContentTypeOf] at hx
        exact hop rc x (by rw [hopr]; simpa using hx)
  | succ f ih =>
    intro rc x hx
    rw [retryGo.eq_def] at hx
    rcases hopr : op rc with ⟨evs, r⟩
    rw [hopr] at hx
    cases r with
    | ok a =>
      simp only [List.filterMap_cons, putContentTypeOf] at hx
      exact hop rc x (by rw [hopr]; simpa using hx)
    | error e =>
      simp only [List.filterMap_cons, List.filterMap_append, putContentTypeOf,
        List.mem_append, List.mem_cons] at hx
      rcases hx with hx | hx
      · exact hop rc x (by rw [hopr]; simpa using hx)
      · exact ih (rc + 1) x (by simpa using hx)

/-- Every PUT event of `uploadPut` carries the content type
`image/<fileExt>` (given the inherited events carry none). -/
theorem uploadPut_cts (s : AliyunOssSettings) (fileExt ossPath : String) (k : Nat)
    (env : OssEnv) (evs : List OssEvent) (body : List Nat)
    (h0 : evs.filterMap putContentTypeOf = []) :
    ∀ x ∈ (uploadPut s fileExt ossPath k env evs body).1.filterMap putContentTypeOf,
      x = "image/" ++ fileExt := by
  intro x hx
  simp only [uploadPut, List.filterMap_append, List.mem_append, h0] at hx
  rcases hx with hx | hx
  · simp at hx
  · refine retryGo_cts _ ("image/" ++ fileExt) ?_ maxRetries 0 x hx
    intro i y hy
    rw [putAttempt_fst] at hy
    simpa [putContentTypeOf] using hy

/-- Every PUT event of `uploadCore` carries the content type
`image/<fileExt>` (given the inherited events carry none). -/
theorem uploadCore_cts (s : AliyunOssSettings) (data : List Nat) (fileExt ossPath : String)
    (k : Nat) (env : OssEnv) (evs0 : List OssEvent)
    (h0 : evs0.filterMap putContentTypeOf = []) :
    ∀ x ∈ (uploadCore s data fileExt ossPath k env evs0).1.filterMap putContentTypeOf,
      x = "image/" ++ fileExt := by
  intro x hx
  rcases hcond : s.enableCompression && isImageExt fileExt with _ | _
  · simp only [uploadCore, hcond, Bool.false_eq_true, if_false] at hx
    exact uploadPut_cts s fileExt ossPath k env evs0 data h0 x hx
  · simp only [uploadCore, hcond, if_true] at hx
    rcases hcomp : env.compress s.maxSizeMB s.maxWidthOrHeight data with m | fc
    · rw [hcomp] at hx
      simp only [List.filterMap_append, List.mem_append, h0] at hx
      rcases hx with hx | hx
      · simp at hx
      · simp [putContentTypeOf] at hx
    · rw [hcomp] at hx
      refine uploadPut_cts s fileExt ossPath k env _ fc ?_ x hx
      simp [List.filterMap_append, h0, putContentTypeOf]

/-- C10: a non-empty filename containing no dot is taken whole as the
extension: the storage key is `{path}{hash}.{filename}` and every PUT
sent carries content type `image/{filename}`; key derivation never
fails. -/
theorem upload_extensionless_filename (s : AliyunOssSettings) (data : List Nat)
    (fileName : String) (skip : Bool) (env : OssEnv)
    (hne : fileName ≠ "") (hdot : '.' ∉ fileName.data) :
    fileExtOf fileName = fileName
    ∧ ossPathOf s data fileName = s.path ++ calculateHash data ++ "." ++ fileName
    ∧ ∀ ct ∈ (uploadWithCompression s data fileName skip env).1.filterMap putContentTypeOf,
        ct = "image/" ++ fileName := by
  have hext : fileExtOf fileName = fileName := by
    rw [fileExtOf, splitOnChar_no_sep '.' fileName.data hdot]
    rcases fileName with ⟨l⟩
    rfl
  refine ⟨hext, by rw [ossPathOf, hext], ?_⟩
  intro ct hct
  rw [← hext]
  cases skip with
  | true =>
    simp only [uploadWithCompression, if_true] at hct
    exact uploadCore_cts s data _ _ 0 env [] rfl ct hct
  | false =>
    simp only [uploadWithCompression, Bool.false_eq_true, if_false] at hct
    rcases hc : checkResultOf env.headOutcome with m | bb
    · rw [show (checkFileExists s (ossPathOf s data fileName) (env.clock 0) env.headOutcome).2
          = checkResultOf env.headOutcome from rfl, hc] at hct
      simp [checkFileExists, putContentTypeOf] at hct
    · rw [show (checkFileExists s (ossPathOf s data fileName) (env.clock 0) env.headOutcome).2
          = checkResultOf env.headOutcome from rfl, hc] at hct
      cases bb
      · exact uploadCore_cts s data _ _ 1 env _ (by simp [checkFileExists, putContentTypeOf]) ct hct
      · simp [checkFileExists, putContentTypeOf] at hct

/-- Witness for C10 at the extensionless filename `"png"`. -/
theorem upload_extensionless_filename_witness :
    fileExtOf "png" = "png"
    ∧ ossPathOf sampleSettings [] "png"
      = sampleSettings.path ++ calculateHash [] ++ "." ++ "png"
    ∧ ∀ ct ∈ (uploadWithCompression sampleSettings [] "png" true retryEnv).1.filterMap putContentTypeOf,
        ct = "image/" ++ "png" :=
  upload_extensionless_filename sampleSettings [] "png" true retryEnv
    (by decide) (by decide)

/-- C6 counterexample: a success-class response with status 204 — not
the not-found signal — also makes `checkFileExists` answer `false`, so
`false` is not returned exactly on the not-found signal. -/
theorem checkFileExists_not_found_only_counterexample :
    (checkFileExists sampleSettings "key" "date" (.status 204)).2 = .ok false
    ∧ NetOutcome.status 204 ≠ NetOutcome.status 404 :=
  ⟨rfl, by decide⟩

/-- C6 (amended): the probe signs `HEAD` with empty content-md5 and
content-type lines; it answers `true` exactly on status 200; the
not-found signal (status 404, whose thrown message contains `'404'`)
answers `false`, but so does every other non-200 status below 400;
thrown errors whose message does not contain `'404'` — statuses of 400
and above other than 404, and transport failures — are propagated to
the caller. -/
theorem checkFileExists_behavior (s : AliyunOssSettings) (ossPath date : String) :
    headStringToSign s ossPath date
      = specCanonicalString "HEAD" "" "" date ("/" ++ s.bucket ++ "/" ++ ossPath)
    ∧ (checkFileExists s ossPath date (.status 200)).2 = .ok true
    ∧ (checkFileExists s ossPath date (.status 404)).2 = .ok false
    ∧ (∀ st, 400 ≤ st → strContains (requestFailedMsg st) "404" = false →
        (checkFileExists s ossPath date (.status st)).2 = .error (requestFailedMsg st))
    ∧ (∀ m, strContains m "404" = false →
        (checkFileExists s ossPath date (.netError m)).2 = .error m)
    ∧ (∀ st, st < 400 → st ≠ 200 →
        (checkFileExists s ossPath date (.status st)).2 = .ok false) := by
  refine ⟨?_, rfl, rfl, ?_, ?_, ?_⟩
  · apply String.ext
    simp [headStringToSign, specCanonicalString, String.data_append]
  · intro st hge hc
    show checkResultOf (.status st) = _
    simp [checkResultOf, requestUrlModel, hge, hc]
  · intro m hc
    show checkResultOf (.netError m) = _
    simp [checkResultOf, requestUrlModel, hc]
  · intro st hlt hne
    have hnle : ¬ 400 ≤ st := by omega
    show checkResultOf (.status st) = _
    simp [checkResultOf, requestUrlModel, hnle, hne]

/-- Witness for C6's amended theorem: a 500 and a transport failure are
propagated, a 304 answers `false`. -/
theorem checkFileExists_behavior_witness :
    (checkFileExists sampleSettings "key" "date" (.status 500)).2
      = .error (requestFailedMsg 500)
    ∧ (checkFileExists sampleSettings "key" "date" (.netError "socket hang up")).2
      = .error "socket hang up"
    ∧ (checkFileExists sampleSettings "key" "date" (.status 304)).2 = .ok false :=
  ⟨(checkFileExists_behavior sampleSettings "key" "date").2.2.2.1 500 (by norm_num) (by decide),
   (checkFileExists_behavior sampleSettings "key" "date").2.2.2.2.1 "socket hang up" (by decide),
   (checkFileExists_behavior sampleSettings "key" "date").2.2.2.2.2 304 (by norm_num) (by decide)⟩

set_option maxRecDepth 100000 in
/-- C8 (code-bug demonstration): in a run whose first PUT attempt fails
with HTTP 500 and whose second succeeds, both attempts send the same
`Authorization` — the one generated before the first attempt from clock
read `"T0"` — while their `Date` headers are the fresh reads `"T1"` and
`"T2"`; and the reused token differs from the one that signing the
retry's own timestamp `"T2"` would produce.  The retried attempt is
therefore sent with a stale signature rather than a regenerated one. -/
theorem upload_retry_reuses_stale_signature :
    ((uploadWithCompression sampleSettings [0, 1] "a.png" true retryEnv).1.filterMap putAuthDateOf
      = [((generateSignature sampleSettings (ossPathOf sampleSettings [0, 1] "a.png")
            "image/png" "T0").1, "T1"),
         ((generateSignature sampleSettings (ossPathOf sampleSettings [0, 1] "a.png")
            "image/png" "T0").1, "T2")])
    ∧ (generateSignature sampleSettings (ossPathOf sampleSettings [0, 1] "a.png")
        "image/png" "T0").1
      ≠ (generateSignature sampleSettings (ossPathOf sampleSettings [0, 1] "a.png")
        "image/png" "T2").1 := by
  constructor
  · rfl
  · decide

set_option maxRecDepth 100000 in
/-- C9 counterexample: for the filename `photo.PNG` the key preserves
the uppercase suffix `PNG`; it is not the lowercased `png` the claim
prescribes. -/
theorem ossPath_lowercase_ext_counterexample :
    ossPathOf sampleSettings [] "photo.PNG"
      = sampleSettings.path ++ calculateHash [] ++ "." ++ "PNG"
    ∧ ossPathOf sampleSettings [] "photo.PNG"
      ≠ sampleSettings.path ++ calculateHash [] ++ "." ++ "png" := by
  constructor
  · rfl
  · decide

/-- C9 (amended): the key is `{path}{contentHex}.{ext}` where
`contentHex` is the lowercase two-hex-characters-per-byte digest of the
SHA-256 of the raw payload, and `ext` is the filename's suffix exactly
as written (case preserved, not lowercased). -/
theorem ossPath_shape (s : AliyunOssSettings) (data : List Nat) (fileName : String) :
    ossPathOf s data fileName
      = s.path ++ lowercaseHexSpec (sha256 data) ++ "." ++ fileExtOf fileName := by
  rw [ossPathOf, calculateHash, lowercaseHexSpec,
    List.map_congr_left (fun b hb => byteToHexJS_eq_spec b (sha256_bytes_lt data b hb))]

/-! ## Fixed-vector checks of the modelled platform primitives -/

set_option maxRecDepth 100000 in
theorem sha256_empty_vector :
    calculateHash []
      = "e3b0c44298fc1c149afbf4c8996fb92427ae41e4649b934ca495991b7852b855" := by
  decide

set_option maxRecDepth 100000 in
theorem sha1_abc_vector :
    String.join ((sha1 (utf8Bytes "abc")).map byteToHexJS)
      = "a9993e364706816aba3e25717850c26c9cd0d89d" := by
  decide

set_option maxRecDepth 100000 in
theorem hmacSha1_rfc_vector :
    String.join ((hmacSha1 (utf8Bytes "key")
        (utf8Bytes "The quick brown fox jumps over the lazy dog")).map byteToHexJS)
      = "de7c9b85b8b78aa6bc8a7a36f70a90701c9db4d9" := by
  decide

set_option maxRecDepth 100000 in
theorem base64_vector : base64Encode (utf8Bytes "any carnal pleasure.")
    = "YW55IGNhcm5hbCBwbGVhc3VyZS4=" := by
  decide

end OssUploader
